import Mathlib

/-!
Shallow embedding of the dnscrypt client (Go) for claim verification.

Bytes are modelled as `Nat` (values 0..255 in practice; wherever Go narrows an
integer to `byte` we take `% 256` explicitly).  Fallible Go code returns
`Option`/`Except`; a Go runtime panic (out-of-range index or slice) is a
distinguished `panic` outcome of the enclosing result type.  External
collaborators (ed25519 verification, nacl box open, DNS message unpacking,
wall-clock time, the random padding draw) are passed in as parameters.
-/

set_option maxRecDepth 20000

namespace Dnscrypt

/-! ### Padding codec (types.go: addPadding / removePadding) -/

/-- Result of an operation that can panic, fail with an error, or succeed. -/
inductive PadResult where
  | panic : PadResult
  | error : PadResult
  | ok : List Nat → PadResult
deriving DecidableEq

/-- `addPadding` from types.go.  The random draw `rand.Int(rand.Reader,
big.NewInt(255))` (a value in `[0,254]`) is passed in as `paddingAmount`.
Go builds `padding := make([]byte, paddingAmount)` and sets `padding[0] = 0x80`;
when `paddingAmount = 0` that index is out of range, a runtime panic,
modelled as `none`. -/
def addPadding (unpadded : List Nat) (paddingAmount : Nat) : Option (List Nat) :=
  let padding := List.replicate paddingAmount 0
  match padding with
  | [] => none
  | _ :: rest => some (unpadded ++ 0x80 :: rest)

/-- `bytes.TrimRight(padded, "\x00")`: drop all trailing zero bytes. -/
def trimRightZeros (l : List Nat) : List Nat :=
  (l.reverse.dropWhile (fun b => b = 0)).reverse

/-- `removePadding` from types.go.  After trimming trailing zeros the Go code
indexes `unpadded[len(unpadded)-1]`, which panics when the trimmed slice is
empty; otherwise a final byte other than `0x80` is an error, and on success
the final `0x80` is removed. -/
def removePadding (padded : List Nat) : PadResult :=
  let unpadded := trimRightZeros padded
  match unpadded.getLast? with
  | none => .panic
  | some lastByte => if lastByte ≠ 0x80 then .error else .ok unpadded.dropLast

/-! ### Text unescape codec (types.go: unpackTXT) -/

/-- `unicode.IsDigit` on an ASCII byte: true exactly for `'0'..'9'`. -/
def isDigitB (b : Nat) : Bool := 48 ≤ b && b ≤ 57

/-- `unpackTXT` from types.go.  A backslash (0x5C) at the very end truncates
the output; a backslash followed by three decimal digits (with the Go guard
`j+2 < len(txt)`) decodes to `byte(DDD)`, i.e. the decimal value modulo 256;
`\n`, `\t`, `\r` decode to 10, 9, 13; any other escaped character is an error
(`none`).  All other bytes are copied through. -/
def unpackTXT : List Nat → Option (List Nat)
  | [] => some []
  | 92 :: [] => some []
  | 92 :: c1 :: c2 :: c3 :: rest =>
      if isDigitB c1 && isDigitB c2 && isDigitB c3 then
        (unpackTXT rest).map (fun out => ((c1 - 48) * 100 + (c2 - 48) * 10 + (c3 - 48)) % 256 :: out)
      else if c1 = 110 then (unpackTXT (c2 :: c3 :: rest)).map (fun out => 10 :: out)
      else if c1 = 116 then (unpackTXT (c2 :: c3 :: rest)).map (fun out => 9 :: out)
      else if c1 = 114 then (unpackTXT (c2 :: c3 :: rest)).map (fun out => 13 :: out)
      else none
  | 92 :: c1 :: rest =>
      if c1 = 110 then (unpackTXT rest).map (fun out => 10 :: out)
      else if c1 = 116 then (unpackTXT rest).map (fun out => 9 :: out)
      else if c1 = 114 then (unpackTXT rest).map (fun out => 13 :: out)
      else none
  | b :: rest => (unpackTXT rest).map (fun out => b :: out)

example : unpackTXT [92, 49, 49, 54, 92, 49, 48, 49, 92, 49, 49, 53, 92, 49, 49, 54] =
    some [116, 101, 115, 116] := by decide

example : unpackTXT [92, 110, 92, 116, 92, 114] = some [10, 9, 13] := by decide

example : unpackTXT [65, 92] = some [65] := by decide

example : unpackTXT [92, 120] = none := by decide

example : unpackTXT [92, 57, 57, 57] = some [231] := by decide

example : addPadding [1, 2] 3 = some [1, 2, 128, 0, 0] := by decide

example : addPadding [1, 2] 0 = none := by decide

example : removePadding [1, 2, 128, 0, 0] = .ok [1, 2] := by decide

example : removePadding [0, 0] = .panic := by decide

example : removePadding [1, 2] = .error := by decide

/-! ### Wire types and certificate parsing (types.go / protocol.go) -/

/-- `certificateMagic = "DNSC"` as bytes. -/
def certificateMagicBytes : List Nat := [68, 78, 83, 67]

/-- `resolverMagic` from protocol.go. -/
def resolverMagicBytes : List Nat := [0x72, 0x36, 0x66, 0x6e, 0x76, 0x57, 0x6a, 0x38]

/-- `dnsMaxSizeUDP = 65536 - 20 - 8`. -/
def dnsMaxSizeUDP : Nat := 65536 - 20 - 8

/-- `signedBincert` (types.go): outer certificate structure. -/
structure SignedBincert where
  magicCert : List Nat
  versionMajor : Nat
  versionMinor : Nat
  signature : List Nat
  signedData : List Nat
deriving DecidableEq

/-- `SignedBincertFields` (types.go): inner, signed certificate fields. -/
structure SignedBincertFields where
  serverPublicKey : List Nat
  magicQuery : List Nat
  serial : List Nat
  tsBegin : Nat
  tsEnd : Nat
deriving DecidableEq

/-- Big-endian 32-bit value from four bytes. -/
def beU32 (b0 b1 b2 b3 : Nat) : Nat := ((b0 * 256 + b1) * 256 + b2) * 256 + b3

/-- `binary.Read(bytes.NewReader(bs), binary.BigEndian, bincert)` for the
124-byte `signedBincert` layout: magic(4) · versionMajor(2) · versionMinor(2) ·
signature(64) · signedData(52).  Errors (`none`) exactly when fewer than 124
bytes are available; extra bytes are left unread. -/
def parseSignedBincert (bs : List Nat) : Option SignedBincert :=
  if bs.length < 124 then none
  else some
    { magicCert := bs.take 4
      versionMajor := (bs.getD 4 0) * 256 + bs.getD 5 0
      versionMinor := (bs.getD 6 0) * 256 + bs.getD 7 0
      signature := (bs.drop 8).take 64
      signedData := (bs.drop 72).take 52 }

/-- `binary.Read` for the 52-byte `SignedBincertFields` layout:
serverPublicKey(32) · magicQuery(8) · serial(4) · tsBegin(4) · tsEnd(4). -/
def parseBincertFields (bs : List Nat) : Option SignedBincertFields :=
  if bs.length < 52 then none
  else some
    { serverPublicKey := bs.take 32
      magicQuery := (bs.drop 32).take 8
      serial := (bs.drop 40).take 4
      tsBegin := beU32 (bs.getD 44 0) (bs.getD 45 0) (bs.getD 46 0) (bs.getD 47 0)
      tsEnd := beU32 (bs.getD 48 0) (bs.getD 49 0) (bs.getD 50 0) (bs.getD 51 0) }

/-! ### Certificate resolver (protocol.go: GetValidCert) -/

/-- One DNS answer as seen by `GetValidCert`: either not a TXT record, or a
TXT record carrying a list of character strings (`t.Txt`). -/
inductive DNSAnswer where
  | nonTXT : DNSAnswer
  | txt : List (List Nat) → DNSAnswer

/-- The distinct error returns of `GetValidCert`. -/
inductive CertError where
  | noAnswer | notTXT | notDNSC | unpackFail | parseFail
  | noSupported | badSignature | innerParseFail
  | preEpoch | notYetValid | expired
deriving DecidableEq

/-- Outcome of `GetValidCert`: runtime panic, error return, or valid fields. -/
inductive CertResult where
  | panic : CertResult
  | error : CertError → CertResult
  | ok : SignedBincertFields → CertResult
deriving DecidableEq

/-- Early exit from the answer-scanning loop. -/
inductive ScanStop where
  | panic : ScanStop
  | error : CertError → ScanStop
deriving DecidableEq

deriving instance DecidableEq for Except

/-- One iteration of the answer loop of `GetValidCert` (protocol.go lines
40-73).  `t.Txt[0]` panics when the TXT record carries no strings;
`t.Txt[0][0:5]` panics when the first string is shorter than 5 bytes, and is
compared (as a 5-byte string) against the 4-byte `certificateMagic` — note the
Go comparison is length-sensitive.  The returned state is the value of the
`bincert` variable after the iteration: it is overwritten unconditionally
before the version check, and reset to `nil` on an unsupported major
version. -/
def processAnswer (a : DNSAnswer) : Except ScanStop (Option SignedBincert) :=
  match a with
  | .nonTXT => .error (.error .notTXT)
  | .txt strs =>
    match strs.head? with
    | none => .error .panic
    | some s =>
      if s.length < 5 then .error .panic
      else if s.take 5 = certificateMagicBytes then .error (.error .notDNSC)
      else
        match unpackTXT s with
        | none => .error (.error .unpackFail)
        | some unpacked =>
          match parseSignedBincert unpacked with
          | none => .error (.error .parseFail)
          | some bc =>
            if bc.versionMajor ≠ 1 then .ok none else .ok (some bc)

/-- The `for _, answer := range in.Answer` loop, threading the `bincert`
variable. -/
def scanAnswers : List DNSAnswer → Option SignedBincert → Except ScanStop (Option SignedBincert)
  | [], bincert => .ok bincert
  | a :: rest, _ =>
    match processAnswer a with
    | .error s => .error s
    | .ok newBincert => scanAnswers rest newBincert

/-- The tail of `GetValidCert` after the scan settles on a certificate
(protocol.go lines 79-109): signature verification, inner parse, and the
validity-window check against the current time `now` (`time.Now().Unix()`,
an `int64`). -/
def finishCert (verify : List Nat → List Nat → List Nat → Bool)
    (providerKey : List Nat) (now : Int) (bc : SignedBincert) : CertResult :=
  if !(verify providerKey bc.signedData bc.signature) then .error .badSignature
  else
    match parseBincertFields bc.signedData with
    | none => .error .innerParseFail
    | some fields =>
      if now < 0 then .error .preEpoch
      else if now.toNat < fields.tsBegin then .error .notYetValid
      else if fields.tsEnd < now.toNat then .error .expired
      else .ok fields

/-- `GetValidCert` (protocol.go), from the point where the DNS exchange has
returned the answer list.  `verify` stands for `ed25519.Verify` and `now` for
the wall clock. -/
def getValidCert (verify : List Nat → List Nat → List Nat → Bool)
    (providerKey : List Nat) (now : Int) (answers : List DNSAnswer) : CertResult :=
  if answers.isEmpty then .error .noAnswer
  else
    match scanAnswers answers none with
    | .error .panic => .panic
    | .error (.error e) => .error e
    | .ok none => .error .noSupported
    | .ok (some bc) => finishCert verify providerKey now bc

/-- `(unpackTXT s).bind parseSignedBincert`: the certificate an answer body
decodes to, if any. -/
def answerCertOf (s : List Nat) : Option SignedBincert :=
  (unpackTXT s).bind parseSignedBincert

/-- A TXT body that decodes and parses to a major-version-1 certificate and
is long enough to pass the (vacuous) magic check without panicking. -/
def goodV1 (s : List Nat) : Bool :=
  5 ≤ s.length &&
    match answerCertOf s with
    | some bc => bc.versionMajor == 1
    | none => false

/-! Concrete certificates used in witnesses: 124 zero bytes except for the
version field (and, for `certV1b`, the serial).  They contain no backslash,
so `unpackTXT` passes them through unchanged. -/

/-- A major-version-1 certificate body, all other bytes zero. -/
def certV1 : List Nat := 0 :: 0 :: 0 :: 0 :: 0 :: 1 :: List.replicate 118 0

/-- A major-version-2 certificate body. -/
def certV2 : List Nat := 0 :: 0 :: 0 :: 0 :: 0 :: 2 :: List.replicate 118 0

/-- A second major-version-1 certificate body with serial byte 7. -/
def certV1b : List Nat :=
  0 :: 0 :: 0 :: 0 :: 0 :: 1 :: (List.replicate 106 0 ++ 7 :: List.replicate 11 0)

/-- A signature-verification stub that accepts everything. -/
def verifyAlways : List Nat → List Nat → List Nat → Bool := fun _ _ _ => true

/-- The fields certV1/certV2 carry: all-zero key, magic, serial, window [0,0]. -/
def fieldsZero : SignedBincertFields :=
  { serverPublicKey := List.replicate 32 0
    magicQuery := List.replicate 8 0
    serial := List.replicate 4 0
    tsBegin := 0
    tsEnd := 0 }

example : certV1.length = 124 := by decide
example : answerCertOf certV1 = some
    { magicCert := [0, 0, 0, 0], versionMajor := 1, versionMinor := 0,
      signature := List.replicate 64 0, signedData := List.replicate 52 0 } := by decide
example : goodV1 certV1 = true := by decide
example : goodV1 certV2 = false := by decide
example : goodV1 certV1b = true := by decide
example : getValidCert verifyAlways [] 0 [.txt [certV1]] = .ok fieldsZero := by decide
example : getValidCert verifyAlways [] 0 [.txt [certV1], .txt [certV2]] =
    .error .noSupported := by decide
example : getValidCert verifyAlways [] 0 [.txt [certV2], .txt [certV1]] =
    .ok fieldsZero := by decide
example : getValidCert verifyAlways [] 1 [.txt [certV1]] = .error .expired := by decide
example : getValidCert verifyAlways [] (-1) [.txt [certV1]] = .error .preEpoch := by decide

/-! ### Encrypted exchange engine, receive path (protocol.go: ExchangeEncrypted) -/

/-- Outcome of the receive half of `ExchangeEncrypted`. -/
inductive ExchResult where
  | panic : ExchResult
  | errMagic : ExchResult
  | errDecrypt : ExchResult
  | errPadding : ExchResult
  | errUnpack : ExchResult
  | ok : List Nat → ExchResult
deriving DecidableEq

/-- The receive path of `ExchangeEncrypted` (protocol.go lines 164-207),
given the `n` bytes read from the socket as `reply`.  The read buffer `p` is
`make([]byte, dnsMaxSizeUDP)`, so bytes past `n` are zero; the 32-byte header
parse from `p[:32]` therefore never fails.  The 24-byte decryption nonce is
rebuilt entirely from the header's client-nonce and server-nonce halves
(`copy(nonce[:], append(responseHeader.ClientNonce[:],
responseHeader.ServerNonce[:]...))` overwrites all 24 bytes), so the
client-nonce half generated for the query is dead here and is not a
parameter.  `p[32:n]` panics when `n < 32`.  `boxOpen` stands for `box.Open`
(nonce, ciphertext) and `unpackDNS` for `dns.Msg.Unpack`. -/
def exchangeReceive (boxOpen : List Nat → List Nat → Option (List Nat))
    (unpackDNS : List Nat → Option (List Nat)) (reply : List Nat) : ExchResult :=
  let p := reply ++ List.replicate (dnsMaxSizeUDP - reply.length) 0
  let serverMagicF := p.take 8
  let clientNonceF := (p.drop 8).take 12
  let serverNonceF := (p.drop 20).take 12
  if serverMagicF ≠ resolverMagicBytes then .errMagic
  else if reply.length < 32 then .panic
  else
    let encryptedResponse := (p.take reply.length).drop 32
    let nonce := clientNonceF ++ serverNonceF
    match boxOpen nonce encryptedResponse with
    | none => .errDecrypt
    | some dnsResponse =>
      match removePadding dnsResponse with
      | .panic => .panic
      | .error => .errPadding
      | .ok unpadded =>
        match unpackDNS unpadded with
        | none => .errUnpack
        | some m => .ok m

/-! ### Helper lemmas -/

lemma unpackTXT_cons_plain (b : Nat) (rest : List Nat) (h : b ≠ 92) :
    unpackTXT (b :: rest) = (unpackTXT rest).map (fun out => b :: out) := by
  rcases rest with _ | ⟨c1, _ | ⟨c2, _ | ⟨c3, r⟩⟩⟩ <;> simp [unpackTXT, h]

lemma unpackTXT_ddd (d1 d2 d3 : Nat) (rest : List Nat)
    (h1 : isDigitB d1 = true) (h2 : isDigitB d2 = true) (h3 : isDigitB d3 = true) :
    unpackTXT (92 :: d1 :: d2 :: d3 :: rest) =
      (unpackTXT rest).map
        (fun out => ((d1 - 48) * 100 + (d2 - 48) * 10 + (d3 - 48)) % 256 :: out) := by
  simp [unpackTXT, h1, h2, h3]

lemma unpackTXT_esc_n (rest : List Nat) :
    unpackTXT (92 :: 110 :: rest) = (unpackTXT rest).map (fun out => 10 :: out) := by
  rcases rest with _ | ⟨c2, _ | ⟨c3, r⟩⟩ <;> simp [unpackTXT, isDigitB]

lemma unpackTXT_esc_t (rest : List Nat) :
    unpackTXT (92 :: 116 :: rest) = (unpackTXT rest).map (fun out => 9 :: out) := by
  rcases rest with _ | ⟨c2, _ | ⟨c3, r⟩⟩ <;> simp [unpackTXT, isDigitB]

lemma unpackTXT_esc_r (rest : List Nat) :
    unpackTXT (92 :: 114 :: rest) = (unpackTXT rest).map (fun out => 13 :: out) := by
  rcases rest with _ | ⟨c2, _ | ⟨c3, r⟩⟩ <;> simp [unpackTXT, isDigitB]

lemma unpackTXT_esc_bad (c : Nat) (rest : List Nat) (hd : isDigitB c = false)
    (hn : c ≠ 110) (ht : c ≠ 116) (hr : c ≠ 114) :
    unpackTXT (92 :: c :: rest) = none := by
  rcases rest with _ | ⟨c2, _ | ⟨c3, r⟩⟩ <;> simp [unpackTXT, hd, hn, ht, hr]

lemma unpackTXT_trailing (pre : List Nat) (h : ¬ 92 ∈ pre) :
    unpackTXT (pre ++ [92]) = some pre := by
  induction pre with
  | nil => rfl
  | cons b p ih =>
      simp only [List.mem_cons, not_or] at h
      rw [List.cons_append, unpackTXT_cons_plain b _ (fun hb => h.1 hb.symm), ih h.2]
      rfl

lemma unpackTXT_length (s : List Nat) :
    ∀ out, unpackTXT s = some out → out.length ≤ s.length := by
  induction s using unpackTXT.induct <;> intro out h <;>
    simp only [unpackTXT] at h <;>
    (repeat' split at h) <;>
    (try simp only [Option.map_eq_some'] at h) <;>
    first
      | (obtain ⟨a, ha, rfl⟩ := h
         rename ∀ o, unpackTXT _ = some o → o.length ≤ _ => ih
         have hle := ih a ha
         simp only [List.length_cons] at hle ⊢
         omega)
      | simp_all

lemma dropWhileZeros_replicate (m : Nat) (l : List Nat) :
    List.dropWhile (fun b => b = 0) (List.replicate m 0 ++ l) =
      List.dropWhile (fun b => b = 0) l := by
  induction m with
  | zero => rfl
  | succ m ih => simp [List.replicate_succ, ih]

lemma trimRightZeros_append_marker (b : List Nat) (m : Nat) :
    trimRightZeros (b ++ 128 :: List.replicate m 0) = b ++ [128] := by
  unfold trimRightZeros
  rw [List.reverse_append, List.reverse_cons, List.reverse_replicate,
    List.append_assoc, dropWhileZeros_replicate]
  simp [List.dropWhile_cons]

/-! ### Claims about the padding codec -/

/-- C2 counterexample: with a zero draw, `addPadding` does not return the
input unchanged — `padding[0] = 0x80` on the empty padding slice panics
(modelled as `none`). -/
theorem addPadding_zero_counterexample :
    addPadding [] 0 = none ∧ ¬ (addPadding [] 0 = some []) := by decide

/-- C2 (amended): for every input, a zero padding draw makes `addPadding`
panic (index out of range on the empty padding slice); it never returns the
input unchanged. -/
theorem addPadding_zero_panics : ∀ b : List Nat, addPadding b 0 = none :=
  fun _ => rfl

/-- C3 counterexample: an input that strips to empty makes `removePadding`
panic (`unpadded[len(unpadded)-1]` on an empty slice), not return the
invalid-padding error. -/
theorem removePadding_empty_counterexample :
    removePadding [] = .panic ∧ ¬ (removePadding [] = .error) := by decide

/-- C3 (amended): when stripping trailing zeros leaves a nonempty buffer whose
final byte is not `0x80`, `removePadding` returns the invalid-padding error;
when the buffer becomes empty (all-zero or empty input) it panics instead. -/
theorem removePadding_no_marker (b : List Nat) :
    (trimRightZeros b = [] → removePadding b = .panic) ∧
    (∀ x, (trimRightZeros b).getLast? = some x → x ≠ 128 →
      removePadding b = .error) := by
  constructor
  · intro h
    simp [removePadding, h]
  · intro x hx hne
    simp [removePadding, hx, hne]

theorem removePadding_no_marker_witness :
    removePadding [0, 0] = .panic ∧ removePadding [5, 0] = .error :=
  ⟨(removePadding_no_marker [0, 0]).1 (by decide),
   (removePadding_no_marker [5, 0]).2 5 (by decide) (by decide)⟩

/-- C4: for every byte sequence `b` and padding length `1..254`, removing the
padding that `addPadding` produced returns exactly `b`, even when `b` ends in
zeros or `0x80`. -/
theorem padding_roundtrip (b : List Nat) (k : Nat) (p : List Nat)
    (h1 : 1 ≤ k) (h2 : k ≤ 254) (h3 : addPadding b k = some p) :
    removePadding p = .ok b := by
  obtain ⟨m, rfl⟩ : ∃ m, k = m + 1 := ⟨k - 1, by omega⟩
  simp only [addPadding, List.replicate_succ, Option.some.injEq] at h3
  subst h3
  simp [removePadding, trimRightZeros_append_marker, List.getLast?_concat,
    List.dropLast_concat]

theorem padding_roundtrip_witness :
    addPadding [128, 0] 3 = some [128, 0, 128, 0, 0] ∧
    removePadding [128, 0, 128, 0, 0] = .ok [128, 0] :=
  ⟨by decide, padding_roundtrip [128, 0] 3 _ (by decide) (by decide) (by decide)⟩

/-! ### Claims about the text unescape codec -/

/-- C8 counterexample: `\999` decodes to byte 231 (the decimal value reduced
modulo 256 by Go's `byte(byteVal)` conversion), not to a byte of value 999. -/
theorem unpackTXT_ddd_counterexample :
    unpackTXT [92, 57, 57, 57] = some [231] ∧
    ¬ (unpackTXT [92, 57, 57, 57] = some [999]) := by decide

/-- C8 (amended): `\DDD` decodes to the byte whose value is the three-digit
decimal number reduced modulo 256 (equal to that value whenever it is at most
255); `\n`, `\t`, `\r` decode to newline, tab, carriage return; a backslash
followed by any other single character fails; a lone trailing backslash
truncates the output; the output is never longer than the input. -/
theorem unpackTXT_spec (d1 d2 d3 c : Nat) (rest pre s out : List Nat) :
    (isDigitB d1 = true → isDigitB d2 = true → isDigitB d3 = true →
      unpackTXT (92 :: d1 :: d2 :: d3 :: rest) =
        (unpackTXT rest).map
          (fun o => ((d1 - 48) * 100 + (d2 - 48) * 10 + (d3 - 48)) % 256 :: o)) ∧
    (unpackTXT (92 :: 110 :: rest) = (unpackTXT rest).map (fun o => 10 :: o)) ∧
    (unpackTXT (92 :: 116 :: rest) = (unpackTXT rest).map (fun o => 9 :: o)) ∧
    (unpackTXT (92 :: 114 :: rest) = (unpackTXT rest).map (fun o => 13 :: o)) ∧
    (isDigitB c = false → c ≠ 110 → c ≠ 116 → c ≠ 114 →
      unpackTXT (92 :: c :: rest) = none) ∧
    (¬ 92 ∈ pre → unpackTXT (pre ++ [92]) = some pre) ∧
    (unpackTXT s = some out → out.length ≤ s.length) :=
  ⟨fun h1 h2 h3 => unpackTXT_ddd d1 d2 d3 rest h1 h2 h3,
   unpackTXT_esc_n rest, unpackTXT_esc_t rest, unpackTXT_esc_r rest,
   fun hd hn ht hr => unpackTXT_esc_bad c rest hd hn ht hr,
   fun hp => unpackTXT_trailing pre hp,
   fun h => unpackTXT_length s out h⟩

theorem unpackTXT_spec_witness :
    unpackTXT [92, 49, 50, 51] = some [123] ∧
    unpackTXT [92, 110, 65] = some [10, 65] ∧
    unpackTXT [92, 116] = some [9] ∧
    unpackTXT [92, 114] = some [13] ∧
    unpackTXT [92, 120] = none ∧
    unpackTXT [65, 92] = some [65] ∧
    ([123] : List Nat).length ≤ [92, 49, 50, 51].length := by
  refine ⟨?_, ?_, ?_, ?_, ?_, ?_, ?_⟩
  · rw [(unpackTXT_spec 49 50 51 120 [] [] [] []).1 (by decide) (by decide) (by decide)]; rfl
  · rw [(unpackTXT_spec 49 50 51 120 [65] [] [] []).2.1]; rfl
  · rw [(unpackTXT_spec 49 50 51 120 [] [] [] []).2.2.1]; rfl
  · rw [(unpackTXT_spec 49 50 51 120 [] [] [] []).2.2.2.1]; rfl
  · exact (unpackTXT_spec 49 50 51 120 [] [] [] []).2.2.2.2.1 (by decide)
      (by decide) (by decide) (by decide)
  · exact (unpackTXT_spec 49 50 51 120 [] [65] [] []).2.2.2.2.2.1 (by decide)
  · exact (unpackTXT_spec 49 50 51 120 [] [] [92, 49, 50, 51] [123]).2.2.2.2.2.2 (by decide)

/-! ### Helper lemmas for the certificate resolver -/

/-- The 5-byte prefix slice can never equal the 4-byte magic: the lengths
differ. -/
lemma take5_ne_magic (s : List Nat) (h : 5 ≤ s.length) :
    s.take 5 ≠ certificateMagicBytes := by
  intro he
  have hl := congrArg List.length he
  simp [certificateMagicBytes] at hl
  omega

lemma goodV1_spec (t : List Nat) (h : goodV1 t = true) :
    5 ≤ t.length ∧ ∃ bc, answerCertOf t = some bc ∧ bc.versionMajor = 1 := by
  unfold goodV1 at h
  rw [Bool.and_eq_true] at h
  obtain ⟨h1, h2⟩ := h
  refine ⟨by simpa using h1, ?_⟩
  cases hac : answerCertOf t with
  | none => rw [hac] at h2; simp at h2
  | some bc =>
      rw [hac] at h2
      exact ⟨bc, rfl, by simpa using h2⟩

lemma processAnswer_some (t : List Nat) (bc : SignedBincert)
    (hlen : 5 ≤ t.length) (hac : answerCertOf t = some bc) :
    processAnswer (.txt [t]) =
      (if bc.versionMajor ≠ 1 then .ok none else .ok (some bc)) := by
  obtain ⟨u, hu, hp⟩ : ∃ u, unpackTXT t = some u ∧ parseSignedBincert u = some bc := by
    simpa [answerCertOf, Option.bind_eq_some] using hac
  simp [processAnswer, Nat.not_lt.mpr hlen, take5_ne_magic t hlen, hu, hp]

lemma processAnswer_goodV1 (t : List Nat) (bc : SignedBincert)
    (hg : goodV1 t = true) (hac : answerCertOf t = some bc) :
    processAnswer (.txt [t]) = .ok (some bc) := by
  obtain ⟨hlen, bc2, hac2, hv2⟩ := goodV1_spec t hg
  rw [hac] at hac2
  have hbc : bc = bc2 := by simpa using hac2
  subst hbc
  rw [processAnswer_some t bc hlen hac]
  simp [hv2]

lemma processAnswer_unsupported (t : List Nat) (bc : SignedBincert)
    (hlen : 5 ≤ t.length) (hac : answerCertOf t = some bc)
    (hv : bc.versionMajor ≠ 1) :
    processAnswer (.txt [t]) = .ok none := by
  rw [processAnswer_some t bc hlen hac]
  simp [hv]

/-- When every answer is a well-formed major-version-1 TXT certificate, the
scan ends holding the certificate of the last answer, whatever state it
started from. -/
lemma scanAnswers_goodV1 (txts : List (List Nat)) :
    ∀ (binc : Option SignedBincert) (tl : List Nat) (bcl : SignedBincert),
    (∀ t ∈ txts, goodV1 t = true) → txts.getLast? = some tl →
    answerCertOf tl = some bcl →
    scanAnswers (txts.map (fun t => DNSAnswer.txt [t])) binc = .ok (some bcl) := by
  induction txts with
  | nil => intro binc tl bcl _ hlast _; simp at hlast
  | cons t rest ih =>
      intro binc tl bcl hall hlast hac
      have hgt : goodV1 t = true := hall t (by simp)
      obtain ⟨hlen, bc, hacbc, hv⟩ := goodV1_spec t hgt
      rw [List.map_cons, scanAnswers, processAnswer_goodV1 t bc hgt hacbc]
      cases rest with
      | nil =>
          obtain rfl : t = tl := by simpa using hlast
          rw [hac] at hacbc
          obtain rfl : bc = bcl := by simpa using hacbc.symm
          rfl
      | cons r rs =>
          rw [List.getLast?_cons_cons] at hlast
          exact ih (some bc) tl bcl (fun x hx => hall x (List.mem_cons_of_mem t hx))
            hlast hac

/-- Parsed form of `certV1`. -/
def bcV1 : SignedBincert :=
  { magicCert := [0, 0, 0, 0], versionMajor := 1, versionMinor := 0,
    signature := List.replicate 64 0, signedData := List.replicate 52 0 }

/-- Parsed form of `certV1b` (serial byte 7 at signed-data offset 40). -/
def bcV1b : SignedBincert :=
  { magicCert := [0, 0, 0, 0], versionMajor := 1, versionMinor := 0,
    signature := List.replicate 64 0,
    signedData := List.replicate 40 0 ++ 7 :: List.replicate 11 0 }

/-- Parsed form of `certV2`. -/
def bcV2 : SignedBincert :=
  { magicCert := [0, 0, 0, 0], versionMajor := 2, versionMinor := 0,
    signature := List.replicate 64 0, signedData := List.replicate 52 0 }

example : answerCertOf certV1b = some bcV1b := by decide
example : answerCertOf certV2 = some bcV2 := by decide

/-! ### Claims about GetValidCert -/

/-- C1 counterexample: with the version-1 certificate first and the
version-2 certificate second, `GetValidCert` fails with
no-supported-certificate instead of returning the version-1 fields; with the
opposite order it succeeds.  The result is not order-independent. -/
theorem getValidCert_order_counterexample :
    getValidCert verifyAlways [] 0 [.txt [certV1], .txt [certV2]] =
      .error .noSupported ∧
    getValidCert verifyAlways [] 0 [.txt [certV2], .txt [certV1]] =
      .ok fieldsZero := by decide

/-- C1 (amended): for a TXT answer set holding one major-version-1 and one
major-version-2 certificate, the version-1 fields are produced only when the
version-1 certificate comes second: the scan overwrites its candidate on every
answer, so a trailing unsupported certificate resets the candidate to nil and
the call fails with no-supported-certificate, while in the other order the
version-1 certificate is retained and handed to the signature and time
checks. -/
theorem getValidCert_v1_v2_order
    (verify : List Nat → List Nat → List Nat → Bool) (key : List Nat) (now : Int)
    (s1 s2 : List Nat) (bc1 bc2 : SignedBincert)
    (hg1 : goodV1 s1 = true) (hac1 : answerCertOf s1 = some bc1)
    (hlen2 : 5 ≤ s2.length) (hac2 : answerCertOf s2 = some bc2)
    (hv2 : bc2.versionMajor = 2) :
    getValidCert verify key now [.txt [s1], .txt [s2]] = .error .noSupported ∧
    getValidCert verify key now [.txt [s2], .txt [s1]] =
      finishCert verify key now bc1 := by
  have p1 := processAnswer_goodV1 s1 bc1 hg1 hac1
  have p2 := processAnswer_unsupported s2 bc2 hlen2 hac2 (by omega)
  constructor
  · simp [getValidCert, scanAnswers, p1, p2]
  · simp [getValidCert, scanAnswers, p1, p2]

theorem getValidCert_v1_v2_order_witness :
    getValidCert verifyAlways [] 7 [.txt [certV1], .txt [certV2]] =
      .error .noSupported ∧
    getValidCert verifyAlways [] 7 [.txt [certV2], .txt [certV1]] =
      finishCert verifyAlways [] 7 bcV1 :=
  getValidCert_v1_v2_order verifyAlways [] 7 certV1 certV2 bcV1 bcV2
    (by decide) (by decide) (by decide) (by decide) (by decide)

/-- C5 counterexample: a TXT answer whose text does not begin with the
ASCII bytes `"DNSC"` does not make the call fail — here the whole call
succeeds, because the magic comparison `t.Txt[0][0:5] == certificateMagic`
compares a 5-byte slice with a 4-byte string and is never true. -/
theorem magic_check_counterexample :
    certV1.take 4 ≠ certificateMagicBytes ∧
    getValidCert verifyAlways [] 0 [.txt [certV1]] = .ok fieldsZero := by decide

/-- C5 (amended): the magic-prefix comparison takes the five-byte slice
`t.Txt[0][0:5]` and compares it with the four-byte magic, so it never
matches: every TXT answer whose text is at least 5 bytes long passes the
check and proceeds to decoding, whether or not it starts with `"DNSC"` (the
not-a-certificate error is unreachable), and an answer with a shorter text
panics on the slice expression. -/
theorem magic_check_vacuous (s sShort : List Nat)
    (hlen : 5 ≤ s.length) (hshort : sShort.length < 5) :
    s.take 5 ≠ certificateMagicBytes ∧
    processAnswer (.txt [s]) =
      (match unpackTXT s with
       | none => .error (.error .unpackFail)
       | some u =>
         match parseSignedBincert u with
         | none => .error (.error .parseFail)
         | some bc => if bc.versionMajor ≠ 1 then .ok none else .ok (some bc)) ∧
    processAnswer (.txt [sShort]) = .error .panic := by
  refine ⟨take5_ne_magic s hlen, ?_, ?_⟩
  · simp [processAnswer, Nat.not_lt.mpr hlen, take5_ne_magic s hlen]
  · simp [processAnswer, hshort]

theorem magic_check_vacuous_witness :
    certV1.take 5 ≠ certificateMagicBytes ∧
    processAnswer (.txt [certV1]) = .ok (some bcV1) ∧
    processAnswer (.txt [[1, 2]]) = .error .panic := by
  have h := magic_check_vacuous certV1 [1, 2] (by decide) (by decide)
  refine ⟨h.1, ?_, h.2.2⟩
  rw [h.2.1]
  decide

/-- C6: once the scan has settled on a certificate whose signature verifies
and whose signed fields parse, acceptance is decided by the inclusive window
`[tsBegin, tsEnd]`: `now = tsEnd` is accepted, `now = tsEnd + 1` is rejected
as expired, a non-negative `now` below `tsBegin` is rejected as not yet
valid, and a negative `now` is rejected as pre-epoch before either bound is
compared. -/
theorem validity_window
    (verify : List Nat → List Nat → List Nat → Bool) (key : List Nat) (now : Int)
    (answers : List DNSAnswer) (bc : SignedBincert) (f : SignedBincertFields)
    (hscan : scanAnswers answers none = .ok (some bc))
    (hver : verify key bc.signedData bc.signature = true)
    (hparse : parseBincertFields bc.signedData = some f)
    (hwin : f.tsBegin ≤ f.tsEnd) :
    ((getValidCert verify key now answers = .ok f) ↔
        (0 ≤ now ∧ (f.tsBegin : Int) ≤ now ∧ now ≤ (f.tsEnd : Int))) ∧
    (now = (f.tsEnd : Int) + 1 →
      getValidCert verify key now answers = .error .expired) ∧
    (0 ≤ now → now < (f.tsBegin : Int) →
      getValidCert verify key now answers = .error .notYetValid) ∧
    (now < 0 → getValidCert verify key now answers = .error .preEpoch) := by
  have hne : answers ≠ [] := by
    rintro rfl
    simp [scanAnswers] at hscan
  have hie : answers.isEmpty = false := by
    cases answers with
    | nil => exact absurd rfl hne
    | cons a l => rfl
  have hgv : getValidCert verify key now answers = finishCert verify key now bc := by
    simp [getValidCert, hie, hscan]
  rw [hgv]
  unfold finishCert
  rw [hver, hparse]
  refine ⟨?_, ?_, ?_, ?_⟩
  · simp only [Bool.not_true, Bool.false_eq_true, if_false]
    split_ifs with h1 h2 h3 <;> simp <;> omega
  · intro h
    subst h
    simp only [Bool.not_true, Bool.false_eq_true, if_false]
    split_ifs <;> try rfl
    all_goals exfalso
    all_goals omega
  · intro h0 hlt
    simp only [Bool.not_true, Bool.false_eq_true, if_false]
    split_ifs <;> try rfl
    all_goals omega
  · intro hneg
    simp only [Bool.not_true, Bool.false_eq_true, if_false]
    rw [if_pos hneg]

theorem validity_window_witness :
    getValidCert verifyAlways [] 0 [.txt [certV1]] = .ok fieldsZero ∧
    getValidCert verifyAlways [] 1 [.txt [certV1]] = .error .expired ∧
    getValidCert verifyAlways [] (-1) [.txt [certV1]] = .error .preEpoch := by
  refine ⟨?_, ?_, ?_⟩
  · exact (validity_window verifyAlways [] 0 [.txt [certV1]] bcV1 fieldsZero
      (by decide) rfl (by decide) (by decide)).1.mpr (by refine ⟨?_, ?_, ?_⟩ <;> decide)
  · exact (validity_window verifyAlways [] 1 [.txt [certV1]] bcV1 fieldsZero
      (by decide) rfl (by decide) (by decide)).2.1 (by decide)
  · exact (validity_window verifyAlways [] (-1) [.txt [certV1]] bcV1 fieldsZero
      (by decide) rfl (by decide) (by decide)).2.2.2 (by decide)

/-- C7: when every TXT answer carries a well-formed major-version-1
certificate, the scan keeps overwriting its candidate, so the certificate of
the last answer is the one handed to the signature check and returned. -/
theorem last_v1_retained
    (verify : List Nat → List Nat → List Nat → Bool) (key : List Nat) (now : Int)
    (txts : List (List Nat)) (tl : List Nat) (bcl : SignedBincert)
    (hall : ∀ t ∈ txts, goodV1 t = true) (hlast : txts.getLast? = some tl)
    (hac : answerCertOf tl = some bcl) :
    getValidCert verify key now (txts.map fun t => DNSAnswer.txt [t]) =
      finishCert verify key now bcl := by
  have hne : txts ≠ [] := by
    rintro rfl
    simp at hlast
  have hie : (txts.map fun t => DNSAnswer.txt [t]).isEmpty = false := by
    cases txts with
    | nil => exact absurd rfl hne
    | cons a l => rfl
  simp [getValidCert, hie, scanAnswers_goodV1 txts none tl bcl hall hlast hac]

theorem last_v1_retained_witness :
    getValidCert verifyAlways [] 0
      [.txt [certV1], .txt [certV1b]] = .ok
        { serverPublicKey := List.replicate 32 0, magicQuery := List.replicate 8 0,
          serial := [7, 0, 0, 0], tsBegin := 0, tsEnd := 0 } := by
  have h := last_v1_retained verifyAlways [] 0 [certV1, certV1b] certV1b bcV1b
    (by decide) (by decide) (by decide)
  rw [show ([.txt [certV1], .txt [certV1b]] : List DNSAnswer) =
    ([certV1, certV1b].map fun t => DNSAnswer.txt [t]) from rfl, h]
  decide

/-! ### Claims about the encrypted exchange receive path -/

/-- A decryption stub that rejects everything. -/
def openNone : List Nat → List Nat → Option (List Nat) := fun _ _ => none

/-- A decryption stub that returns the fixed plaintext `[0x80]` (a padded
empty message). -/
def openMarker : List Nat → List Nat → Option (List Nat) := fun _ _ => some [128]

/-- A DNS unpacking stub that returns the bytes themselves. -/
def unpackId : List Nat → Option (List Nat) := fun u => some u

/-- C9: a reply shorter than 32 bytes whose zero-extended buffer starts with
the resolver magic makes the exchange panic on the slice `p[32:n]` rather
than return an error; only when the magic check fails first does a short
reply produce the ordinary magic-mismatch error. -/
theorem short_reply_panics
    (boxOpen : List Nat → List Nat → Option (List Nat))
    (unpackDNS : List Nat → Option (List Nat)) (reply : List Nat)
    (hshort : reply.length < 32) :
    ((reply ++ List.replicate (dnsMaxSizeUDP - reply.length) 0).take 8 =
        resolverMagicBytes →
      exchangeReceive boxOpen unpackDNS reply = .panic) ∧
    ((reply ++ List.replicate (dnsMaxSizeUDP - reply.length) 0).take 8 ≠
        resolverMagicBytes →
      exchangeReceive boxOpen unpackDNS reply = .errMagic) := by
  constructor
  · intro hmagic
    simp [exchangeReceive, hmagic, hshort]
  · intro hmagic
    simp [exchangeReceive, hmagic]

theorem short_reply_panics_witness :
    exchangeReceive openNone unpackId resolverMagicBytes = .panic ∧
    exchangeReceive openNone unpackId [] = .errMagic :=
  ⟨(short_reply_panics openNone unpackId resolverMagicBytes (by decide)).1
      (by rw [List.take_append_of_le_length (by decide)]; decide),
   (short_reply_panics openNone unpackId [] (by decide)).2 (by decide)⟩

/-- C10: the 24-byte response nonce is rebuilt entirely from the reply
header's two nonce halves (bytes 8..31 of the reply); the client-nonce half
generated for the query is never compared against the echoed one, so a reply
whose echoed client half differs from any value `sentClientNonce` is still
accepted whenever the ciphertext authenticates under the header-supplied
nonce. -/
theorem response_nonce_from_header
    (boxOpen : List Nat → List Nat → Option (List Nat))
    (unpackDNS : List Nat → Option (List Nat))
    (sentClientNonce reply d u m : List Nat)
    (hlen : 32 ≤ reply.length)
    (hmagic : reply.take 8 = resolverMagicBytes)
    (_hdiff : (reply.drop 8).take 12 ≠ sentClientNonce)
    (hopen : boxOpen ((reply.drop 8).take 24) (reply.drop 32) = some d)
    (hpad : removePadding d = .ok u)
    (hunpack : unpackDNS u = some m) :
    exchangeReceive boxOpen unpackDNS reply = .ok m := by
  have hnonce : (reply.drop 8).take 12 ++ (reply.drop 20).take 12 =
      (reply.drop 8).take 24 := by
    rw [show (24 : Nat) = 12 + 12 from rfl, List.take_add, List.drop_drop]
  simp only [exchangeReceive,
    List.take_append_of_le_length (show 8 ≤ reply.length by omega),
    List.drop_append_of_le_length (show 8 ≤ reply.length by omega),
    List.drop_append_of_le_length (show 20 ≤ reply.length by omega),
    List.take_append_of_le_length
      (show 12 ≤ (reply.drop 8).length by simp only [List.length_drop]; omega),
    List.take_append_of_le_length
      (show 12 ≤ (reply.drop 20).length by simp only [List.length_drop]; omega),
    List.take_left, hmagic, hnonce, hopen, hpad, hunpack]
  simp [Nat.not_lt.mpr hlen]

/-- Concrete reply for the C10 witness: resolver magic, client half of
twelve 1s, server half of twelve 2s, one ciphertext byte. -/
def replyW : List Nat :=
  resolverMagicBytes ++ (List.replicate 12 1 ++ (List.replicate 12 2 ++ [9]))

theorem response_nonce_from_header_witness :
    exchangeReceive openMarker unpackId replyW = .ok [] :=
  response_nonce_from_header openMarker unpackId (List.replicate 12 0)
    replyW [128] [] [] (by decide) (by decide) (by decide) (by decide)
    (by decide) (by decide)

end Dnscrypt
